import Mathlib

/-!
Verification of the stereo-calibration pipeline of the `stccam` repository
(`stccam/calibration.py`, function `stereo_calibration`).

The function is embedded shallowly:

* the file system (directory listings, existing directories) and the OpenCV
  primitives (`imread`, `findChessboardCorners`, `cornerSubPix`, the
  least-squares solvers) are oracles packaged in an `Env` record;
* image decoding returns `Option` (`none` models the null result of
  `cv2.imread` on an undecodable file);
* the Python exceptions that can escape the function are the constructors of
  `RunError`, and the whole run is a value of `Except RunError Output`;
* numeric values (corner coordinates, the square size, the RMS error) live
  in the integers: the claims under study are structural (counts,
  orderings, file paths, control flow) and use only ring operations, so any
  nontrivial commutative ring models the float arithmetic faithfully for
  them, and ℤ keeps every statement decidable.

The detection loop (`detectLoop`) and the tail of the function
(`runTail`: image-size extraction, the solver calls, archive writing) are
separated exactly at the source line `img_size = grayL.shape[::-1]`.
-/

/-- A 2D image point (sub-pixel corner coordinate). -/
abbrev Point2 : Type := ℤ × ℤ

/-- A 3D object point on the chessboard plane. -/
abbrev Point3 : Type := ℤ × ℤ × ℤ

/-- Model of `os.path.join` for the plain relative components the function
builds (no trailing separators, no absolute second component). -/
def joinP (a b : String) : String := a ++ "/" ++ b

/-- The oracles of one calibration run: directory listings, image decoding
(`cv2.imread`, `none` = null), gray-image shapes, chessboard detection,
sub-pixel refinement, the initially existing directories, and the stereo
solver's reported RMS error.  Images are identified by the `Nat` returned
from `decode`; `cv2.cvtColor` on a decoded image is the identity on the
identifier, and `shapeHW` gives the gray image's `(height, width)`. -/
structure Env where
  leftDirFiles : List String
  rightDirFiles : List String
  decode : String → Option Nat
  shapeHW : Nat → Nat × Nat
  found : Nat → Bool
  corners : Nat → List Point2
  refine : Nat → Point2 → Point2
  initialDirs : List String
  stereoRms : List (List Point3) → List (List Point2) → List (List Point2) → Nat × Nat → ℤ

/-- The arguments of `stereo_calibration` that the claims depend on.
The OpenCV flag/criteria arguments are passed through to the oracles
unchanged and are therefore already absorbed into `Env`. -/
structure Config where
  filePath : String
  chR : Nat
  chC : Nat
  squareSize : ℤ
  paramSavePath : String
  imageLimit : Nat
  saveRendered : Option String

/-- The default of the `image_limit` parameter. -/
def defaultImageLimit : Nat := 10

/-- The Python exceptions that can escape the run. `insufficientSamples` is
the dedicated error the specification asks for; it is present in the error
type so that the corresponding claim is statable, and the theorems settle
whether the code ever produces it. -/
inductive RunError where
  | insufficientSamples
  | nameErrorGrayL
  | calibrateCameraAssert
  | cvtColorNull (path : String)
deriving DecidableEq

/-- `glob.glob(os.path.join(dir, "*.png"))` filename filter: `*` does not
match a leading dot, and the pattern requires the `.png` suffix.  Stated on
the character lists of the names. -/
def pngName (f : String) : Bool :=
  (".png".data.isSuffixOf f.data) && !((['.'] : List Char).isPrefixOf f.data)

/-- The unsorted glob result for `<file_path>/stereo_left/*.png`:
matching names of the directory listing, each prefixed by the directory. -/
def leftGlob (cfg : Config) (env : Env) : List String :=
  (env.leftDirFiles.filter pngName).map fun f =>
    joinP (joinP cfg.filePath "stereo_left") f

/-- The unsorted glob result for `<file_path>/stereo_right/*.png`. -/
def rightGlob (cfg : Config) (env : Env) : List String :=
  (env.rightDirFiles.filter pngName).map fun f =>
    joinP (joinP cfg.filePath "stereo_right") f

/-- Lexicographic order on code-point sequences, the order Python uses to
compare strings. -/
def lexLe : List Nat → List Nat → Bool
  | [], _ => true
  | _ :: _, [] => false
  | a :: as, b :: bs =>
    if a < b then true else if b < a then false else lexLe as bs

/-- Python's `str` comparison: lexicographic on the code points. -/
def strLe (a b : String) : Bool :=
  lexLe (a.data.map Char.toNat) (b.data.map Char.toNat)

/-- `sorted(glob.glob(...))` for the left directory: a stable sort in
Python's string order. -/
def sortedLeft (cfg : Config) (env : Env) : List String :=
  (leftGlob cfg env).insertionSort fun a b => strLe a b = true

/-- `sorted(glob.glob(...))` for the right directory. -/
def sortedRight (cfg : Config) (env : Env) : List String :=
  (rightGlob cfg env).insertionSort fun a b => strLe a b = true

/-- `left_images = sorted(glob.glob(...))[:image_limit]`. -/
def leftImages (cfg : Config) (env : Env) : List String :=
  (sortedLeft cfg env).take cfg.imageLimit

/-- `right_images = sorted(glob.glob(...))[:image_limit]`. -/
def rightImages (cfg : Config) (env : Env) : List String :=
  (sortedRight cfg env).take cfg.imageLimit

/-- The pair sequence the detection loop iterates over:
`zip(left_images, right_images)`. -/
def processedPairs (cfg : Config) (env : Env) : List (String × String) :=
  (leftImages cfg env).zip (rightImages cfg env)

/-- The object-point array `objp`: `np.zeros((ch_r*ch_c, 3))` whose first two
columns are filled from `np.mgrid[0:ch_r, 0:ch_c].T.reshape(-1, 2)` and which
is then multiplied by `square_size`.  Row `n` of the reshaped grid is
`(n % ch_r, n / ch_r)`, so point `n` is
`((n % ch_r) * s, (n / ch_r) * s, 0 * s)`. -/
def objp (cfg : Config) : List Point3 :=
  (List.range (cfg.chR * cfg.chC)).map fun n =>
    (((n % cfg.chR : ℕ) : ℤ) * cfg.squareSize,
     ((n / cfg.chR : ℕ) : ℤ) * cfg.squareSize,
     (0 : ℤ) * cfg.squareSize)

/-- The mutable state of the detection loop: the three accumulator lists,
the binding of `grayL` (the gray left image of the last pair read), the
existing directories, and the `cv2.imwrite` attempts `(path, success)`. -/
structure LoopState where
  objpoints : List (List Point3)
  ipL : List (List Point2)
  ipR : List (List Point2)
  lastGrayL : Option Nat
  dirs : List String
  writes : List (String × Bool)
deriving DecidableEq

/-- The loop state before the first iteration. -/
def initState (env : Env) : LoopState :=
  { objpoints := [], ipL := [], ipR := [], lastGrayL := none,
    dirs := env.initialDirs, writes := [] }

/-- Debug-render file path for the left image of input index `i`. -/
def leftFile (sr : String) (i : Nat) : String :=
  joinP (joinP sr "stereo_left") ("left_img" ++ toString i ++ ".png")

/-- Debug-render file path for the right image of input index `i`. -/
def rightFile (sr : String) (i : Nat) : String :=
  joinP (joinP sr "stereo_right") ("right_img" ++ toString i ++ ".png")

/-- The body of the `if retL and retR:` branch: append `objp` and the
refined corner lists, then (when rendering is on) create the render
directories if the parent does not exist and attempt the two writes.
`cv2.imwrite` to a missing directory fails without raising, so attempts are
recorded as `(path, directory-existed)`. -/
def retainStep (cfg : Config) (env : Env) (st : LoopState) (i gl gr : Nat) :
    LoopState :=
  let base : LoopState :=
    { st with objpoints := st.objpoints ++ [objp cfg],
              ipL := st.ipL ++ [(env.corners gl).map (env.refine gl)],
              ipR := st.ipR ++ [(env.corners gr).map (env.refine gr)] }
  match cfg.saveRendered with
  | none => base
  | some sr =>
    let lpDir := joinP sr "stereo_left"
    let rpDir := joinP sr "stereo_right"
    let dirs := if base.dirs.contains sr then base.dirs
                else lpDir :: rpDir :: sr :: base.dirs
    { base with
        dirs := dirs,
        writes := base.writes ++
          [(leftFile sr i, dirs.contains lpDir),
           (rightFile sr i, dirs.contains rpDir)] }

/-- One iteration of the detection loop on input index `i` and pair
`(lp, rp)`: read both images, convert to gray (raising `cv2.error` on a null
image), detect, and retain the pair when both detections succeed. -/
def processPair (cfg : Config) (env : Env) (st : LoopState) (i : Nat)
    (lp rp : String) : Except RunError LoopState :=
  match env.decode lp, env.decode rp with
  | none, _ => .error (.cvtColorNull lp)
  | some _, none => .error (.cvtColorNull rp)
  | some gl, some gr =>
    let st1 : LoopState := { st with lastGrayL := some gl }
    if env.found gl && env.found gr then .ok (retainStep cfg env st1 i gl gr)
    else .ok st1

/-- The whole detection loop `for idx, (left_img, right_img) in
enumerate(zip(left_images, right_images))`. -/
def detectLoop (cfg : Config) (env : Env) : Except RunError LoopState :=
  (processedPairs cfg env).enum.foldlM
    (fun st ip => processPair cfg env st ip.1 ip.2.1 ip.2.2) (initState env)

/-- The names under which `np.savez` stores the arrays of the output
archive `stereo_calib.npz`. -/
def npzKeys : List String :=
  ["mtxL", "distL", "mtxR", "distR", "R", "T", "R1", "R2", "P1", "P2", "Q"]

/-- The observable outcome of a run that reaches the `return` statement:
the returned RMS error, the image size handed to the solvers, the written
archives as `(path, array names)`, the three accumulator lists, and the
debug-render write attempts and final directory set. -/
structure Output where
  retval : ℤ
  imgSize : Nat × Nat
  archives : List (String × List String)
  objpoints : List (List Point3)
  ipL : List (List Point2)
  ipR : List (List Point2)
  writes : List (String × Bool)
  dirs : List String
deriving DecidableEq

/-- The tail of the function after the detection loop: `img_size =
grayL.shape[::-1]` raises a `NameError` when no pair was ever read;
`cv2.calibrateCamera` asserts on an empty `objpoints` list; otherwise the
solvers run, the archive is written and the stereo RMS error is returned. -/
def runTail (cfg : Config) (env : Env) (st : LoopState) :
    Except RunError Output :=
  match st.lastGrayL with
  | none => .error .nameErrorGrayL
  | some g =>
    let sz := ((env.shapeHW g).2, (env.shapeHW g).1)
    if st.objpoints.isEmpty then .error .calibrateCameraAssert
    else
      .ok { retval := env.stereoRms st.objpoints st.ipL st.ipR sz,
            imgSize := sz,
            archives := [(joinP cfg.paramSavePath "stereo_calib.npz", npzKeys)],
            objpoints := st.objpoints, ipL := st.ipL, ipR := st.ipR,
            writes := st.writes, dirs := st.dirs }

/-- The embedded `stereo_calibration` run. -/
def run (cfg : Config) (env : Env) : Except RunError Output :=
  (detectLoop cfg env).bind (runTail cfg env)

/-- A pair decodes on both sides (`cv2.imread` returns non-null twice). -/
def decodesPair (env : Env) (p : String × String) : Prop :=
  (env.decode p.1).isSome ∧ (env.decode p.2).isSome

instance (env : Env) (p : String × String) : Decidable (decodesPair env p) :=
  inferInstanceAs (Decidable (_ ∧ _))

/-- Every pair the loop processes decodes on both sides. -/
def allDecode (cfg : Config) (env : Env) : Prop :=
  ∀ p ∈ processedPairs cfg env, decodesPair env p

/-- Both chessboard detections of a pair succeed (`retL and retR`). -/
def foundPair (env : Env) (p : String × String) : Bool :=
  match env.decode p.1, env.decode p.2 with
  | some gl, some gr => env.found gl && env.found gr
  | _, _ => false

/-- The pairs the loop retains as calibration samples. -/
def retainedPairs (cfg : Config) (env : Env) : List (String × String) :=
  (processedPairs cfg env).filter (foundPair env)

/-- The sub-pixel-refined left corner observation of a pair. -/
def refinedLeft (env : Env) (p : String × String) : List Point2 :=
  match env.decode p.1 with
  | some g => (env.corners g).map (env.refine g)
  | none => []

/-- The sub-pixel-refined right corner observation of a pair. -/
def refinedRight (env : Env) (p : String × String) : List Point2 :=
  match env.decode p.2 with
  | some g => (env.corners g).map (env.refine g)
  | none => []

/-- The value of the `grayL` binding after reading a pair list, starting
from binding `d`: the decoded left image of the last pair, if any. -/
def lastLeftDecoded (env : Env) : List (String × String) → Option Nat → Option Nat
  | [], d => d
  | p :: ps, _ => lastLeftDecoded env ps (env.decode p.1)

/-- The debug-render paths the loop writes for an enumerated pair list. -/
def writePathsOf (cfg : Config) (env : Env)
    (l : List (Nat × (String × String))) : List String :=
  match cfg.saveRendered with
  | none => []
  | some sr =>
    (l.filter fun ip => foundPair env ip.2).flatMap fun ip =>
      [leftFile sr ip.1, rightFile sr ip.1]

lemma retainStep_objpoints (cfg : Config) (env : Env) (st : LoopState)
    (i gl gr : Nat) :
    (retainStep cfg env st i gl gr).objpoints = st.objpoints ++ [objp cfg] := by
  unfold retainStep; cases cfg.saveRendered <;> simp

lemma retainStep_ipL (cfg : Config) (env : Env) (st : LoopState)
    (i gl gr : Nat) :
    (retainStep cfg env st i gl gr).ipL
      = st.ipL ++ [(env.corners gl).map (env.refine gl)] := by
  unfold retainStep; cases cfg.saveRendered <;> simp

lemma retainStep_ipR (cfg : Config) (env : Env) (st : LoopState)
    (i gl gr : Nat) :
    (retainStep cfg env st i gl gr).ipR
      = st.ipR ++ [(env.corners gr).map (env.refine gr)] := by
  unfold retainStep; cases cfg.saveRendered <;> simp

lemma retainStep_lastGrayL (cfg : Config) (env : Env) (st : LoopState)
    (i gl gr : Nat) :
    (retainStep cfg env st i gl gr).lastGrayL = st.lastGrayL := by
  unfold retainStep; cases cfg.saveRendered <;> simp

lemma retainStep_writes_fst (cfg : Config) (env : Env) (st : LoopState)
    (i gl gr : Nat) :
    (retainStep cfg env st i gl gr).writes.map Prod.fst
      = st.writes.map Prod.fst ++
        (match cfg.saveRendered with
         | none => []
         | some sr => [leftFile sr i, rightFile sr i]) := by
  unfold retainStep; cases cfg.saveRendered <;> simp

/-- Master characterization of the detection loop on any enumerated pair
list, from any start state, when every listed pair decodes: the loop
finishes without an exception, the three accumulators grow by exactly the
retained pairs (in order), `grayL` ends bound to the last pair read, and
the debug writes target exactly the per-retained-pair render paths. -/
lemma foldl_ok (cfg : Config) (env : Env) :
    ∀ (l : List (Nat × (String × String))) (st : LoopState),
      (∀ ip ∈ l, decodesPair env ip.2) →
      ∃ fin,
        l.foldlM (fun s ip => processPair cfg env s ip.1 ip.2.1 ip.2.2) st
          = .ok fin
        ∧ fin.objpoints = st.objpoints ++
            ((l.filter fun ip => foundPair env ip.2).map fun _ => objp cfg)
        ∧ fin.ipL = st.ipL ++
            ((l.filter fun ip => foundPair env ip.2).map fun ip =>
              refinedLeft env ip.2)
        ∧ fin.ipR = st.ipR ++
            ((l.filter fun ip => foundPair env ip.2).map fun ip =>
              refinedRight env ip.2)
        ∧ fin.lastGrayL = lastLeftDecoded env (l.map Prod.snd) st.lastGrayL
        ∧ fin.writes.map Prod.fst
            = st.writes.map Prod.fst ++ writePathsOf cfg env l := by
  intro l
  induction l with
  | nil =>
    intro st _
    exact ⟨st, rfl, by simp, by simp, by simp, rfl, by
      unfold writePathsOf; cases cfg.saveRendered <;> simp⟩
  | cons x rest ih =>
    intro st hdec
    obtain ⟨gl, hgl⟩ := Option.isSome_iff_exists.mp (hdec x (by simp)).1
    obtain ⟨gr, hgr⟩ := Option.isSome_iff_exists.mp (hdec x (by simp)).2
    have hdecr : ∀ ip ∈ rest, decodesPair env ip.2 := fun ip h =>
      hdec ip (by simp [h])
    have hfp : foundPair env x.2 = (env.found gl && env.found gr) := by
      simp [foundPair, hgl, hgr]
    by_cases hf : (env.found gl && env.found gr) = true
    · -- both detections succeed: the pair is retained
      set st1 : LoopState := { st with lastGrayL := some gl } with hst1
      obtain ⟨fin, hrun, hobj, hl, hr, hlast, hw⟩ :=
        ih (retainStep cfg env st1 x.1 gl gr) hdecr
      refine ⟨fin, ?_, ?_, ?_, ?_, ?_, ?_⟩
      · rw [List.foldlM_cons]
        simp only [processPair, hgl, hgr, hf, if_true]
        exact hrun
      · rw [hobj, retainStep_objpoints, List.filter_cons]
        simp [hfp, hf, hst1]
      · rw [hl, retainStep_ipL, List.filter_cons]
        simp [hfp, hf, hst1, refinedLeft, hgl]
      · rw [hr, retainStep_ipR, List.filter_cons]
        simp [hfp, hf, hst1, refinedRight, hgr]
      · rw [hlast, retainStep_lastGrayL]
        simp [lastLeftDecoded, hst1, hgl]
      · rw [hw, retainStep_writes_fst]
        unfold writePathsOf
        cases cfg.saveRendered with
        | none => simp [hst1]
        | some sr =>
          rw [List.filter_cons]
          simp [hfp, hf, hst1]
    · -- one side failed: the pair is skipped
      set st1 : LoopState := { st with lastGrayL := some gl } with hst1
      obtain ⟨fin, hrun, hobj, hl, hr, hlast, hw⟩ := ih st1 hdecr
      refine ⟨fin, ?_, ?_, ?_, ?_, ?_, ?_⟩
      · rw [List.foldlM_cons]
        simp only [processPair, hgl, hgr, hf, if_false]
        exact hrun
      · rw [hobj, List.filter_cons]
        simp [hfp, hf, hst1]
      · rw [hl, List.filter_cons]
        simp [hfp, hf, hst1]
      · rw [hr, List.filter_cons]
        simp [hfp, hf, hst1]
      · rw [hlast]
        simp [lastLeftDecoded, hst1, hgl]
      · rw [hw]
        unfold writePathsOf
        cases cfg.saveRendered with
        | none => simp [hst1]
        | some sr =>
          rw [List.filter_cons]
          simp [hfp, hf, hst1]

lemma snd_mem_enumFrom :
    ∀ (l : List (String × String)) (n : Nat) (ip : Nat × (String × String)),
      ip ∈ List.enumFrom n l → ip.2 ∈ l := by
  intro l
  induction l with
  | nil => intro n ip h; simp at h
  | cons x xs ih =>
    intro n ip h
    rw [List.enumFrom_cons] at h
    rcases List.mem_cons.mp h with h | h
    · subst h; simp
    · exact List.mem_cons_of_mem x (ih (n + 1) ip h)

lemma enumFrom_filter_map_snd {β : Type} (F : String × String → Bool)
    (G : String × String → β) :
    ∀ (l : List (String × String)) (n : Nat),
      ((List.enumFrom n l).filter fun ip => F ip.2).map (fun ip => G ip.2)
        = (l.filter F).map G := by
  intro l
  induction l with
  | nil => intro n; simp
  | cons x xs ih =>
    intro n
    rw [List.enumFrom_cons, List.filter_cons, List.filter_cons]
    by_cases h : F x = true
    · simp only [h, if_true]
      simp [ih (n + 1)]
    · simp only [h]
      simp [ih (n + 1)]

lemma lastLeftDecoded_spec (env : Env) :
    ∀ (l : List (String × String)) (d : Option Nat), l ≠ [] →
      ∃ p, l.getLast? = some p ∧ p ∈ l
        ∧ lastLeftDecoded env l d = env.decode p.1 := by
  intro l
  induction l with
  | nil => intro d h; exact absurd rfl h
  | cons x xs ih =>
    intro d _
    cases xs with
    | nil => exact ⟨x, by simp, by simp, rfl⟩
    | cons y t =>
      obtain ⟨p, h1, h2, h3⟩ := ih (env.decode x.1) (by simp)
      refine ⟨p, ?_, by simp [h2], ?_⟩
      · rw [List.getLast?_cons_cons]; exact h1
      · show lastLeftDecoded env (y :: t) (env.decode x.1) = env.decode p.1
        exact h3

/-- Characterization of the detection loop of a full run, under the
assumption that every processed file decodes. -/
lemma detectLoop_ok (cfg : Config) (env : Env) (h : allDecode cfg env) :
    ∃ st, detectLoop cfg env = .ok st
      ∧ st.objpoints = (retainedPairs cfg env).map (fun _ => objp cfg)
      ∧ st.ipL = (retainedPairs cfg env).map (refinedLeft env)
      ∧ st.ipR = (retainedPairs cfg env).map (refinedRight env)
      ∧ st.lastGrayL = lastLeftDecoded env (processedPairs cfg env) none
      ∧ st.writes.map Prod.fst
          = writePathsOf cfg env (processedPairs cfg env).enum := by
  obtain ⟨fin, hrun, hobj, hl, hr, hlast, hw⟩ :=
    foldl_ok cfg env (processedPairs cfg env).enum (initState env)
      (fun ip hip => h ip.2 (snd_mem_enumFrom _ 0 ip hip))
  refine ⟨fin, hrun, ?_, ?_, ?_, ?_, ?_⟩
  · rw [hobj]
    show _ ++ ((List.enumFrom 0 _).filter fun ip => foundPair env ip.2).map
        (fun ip => (fun _ => objp cfg) ip.2) = _
    rw [enumFrom_filter_map_snd (foundPair env) (fun _ => objp cfg)]
    simp [initState, retainedPairs]
  · rw [hl]
    show _ ++ ((List.enumFrom 0 _).filter fun ip => foundPair env ip.2).map
        (fun ip => (refinedLeft env) ip.2) = _
    rw [enumFrom_filter_map_snd (foundPair env) (refinedLeft env)]
    simp [initState, retainedPairs]
  · rw [hr]
    show _ ++ ((List.enumFrom 0 _).filter fun ip => foundPair env ip.2).map
        (fun ip => (refinedRight env) ip.2) = _
    rw [enumFrom_filter_map_snd (foundPair env) (refinedRight env)]
    simp [initState, retainedPairs]
  · rw [hlast, List.enum_map_snd]
    simp [initState]
  · rw [hw]
    simp [initState]

/-- The image size `grayL.shape[::-1]` computed from the (optional) path of
an image: `(width, height)` of its decoded gray frame. -/
def imgSizeOfPath (env : Env) (p? : Option String) : Nat × Nat :=
  match p?.bind env.decode with
  | some g => ((env.shapeHW g).2, (env.shapeHW g).1)
  | none => (0, 0)

/-- Characterization of a successful run: at least one retained pair and
all processed files decode. -/
lemma run_ok (cfg : Config) (env : Env) (hd : allDecode cfg env)
    (hne : retainedPairs cfg env ≠ []) :
    ∃ out, run cfg env = .ok out
      ∧ out.objpoints = (retainedPairs cfg env).map (fun _ => objp cfg)
      ∧ out.ipL = (retainedPairs cfg env).map (refinedLeft env)
      ∧ out.ipR = (retainedPairs cfg env).map (refinedRight env)
      ∧ out.imgSize
          = imgSizeOfPath env ((processedPairs cfg env).getLast?.map Prod.fst)
      ∧ out.archives = [(joinP cfg.paramSavePath "stereo_calib.npz", npzKeys)]
      ∧ out.retval = env.stereoRms out.objpoints out.ipL out.ipR out.imgSize
      ∧ out.writes.map Prod.fst
          = writePathsOf cfg env (processedPairs cfg env).enum := by
  obtain ⟨st, hrun, hobj, hl, hr, hlast, hw⟩ := detectLoop_ok cfg env hd
  have hppne : processedPairs cfg env ≠ [] := by
    intro hc
    exact hne (by simp [retainedPairs, hc])
  obtain ⟨p, hp1, hp2, hp3⟩ :=
    lastLeftDecoded_spec env (processedPairs cfg env) none hppne
  obtain ⟨g, hg⟩ := Option.isSome_iff_exists.mp (hd p hp2).1
  have hlast' : st.lastGrayL = some g := by rw [hlast, hp3, hg]
  have hobjne : st.objpoints.isEmpty = false := by
    rw [hobj, List.isEmpty_eq_false]
    simpa using hne
  refine ⟨{ retval := env.stereoRms st.objpoints st.ipL st.ipR
                ((env.shapeHW g).2, (env.shapeHW g).1),
            imgSize := ((env.shapeHW g).2, (env.shapeHW g).1),
            archives := [(joinP cfg.paramSavePath "stereo_calib.npz", npzKeys)],
            objpoints := st.objpoints, ipL := st.ipL, ipR := st.ipR,
            writes := st.writes, dirs := st.dirs }, ?_, hobj, hl, hr, ?_, rfl,
          ?_, hw⟩
  · show (detectLoop cfg env).bind (runTail cfg env) = _
    rw [hrun]
    show runTail cfg env st = _
    unfold runTail
    rw [hlast', hobjne]
    simp
  · show ((env.shapeHW g).2, (env.shapeHW g).1)
        = imgSizeOfPath env ((processedPairs cfg env).getLast?.map Prod.fst)
    rw [hp1]
    simp [imgSizeOfPath, hg]
  · rfl

lemma lexLe_total : ∀ (a b : List Nat), lexLe a b = true ∨ lexLe b a = true
  | [], _ => Or.inl rfl
  | _ :: _, [] => Or.inr rfl
  | a :: as, b :: bs => by
    unfold lexLe
    rcases Nat.lt_trichotomy a b with h | h | h
    · left; simp [h]
    · subst h
      simp only [Nat.lt_irrefl, if_false]
      exact lexLe_total as bs
    · right; simp [h, Nat.lt_asymm h]

lemma lexLe_trans :
    ∀ (a b c : List Nat),
      lexLe a b = true → lexLe b c = true → lexLe a c = true
  | [], _, _, _, _ => rfl
  | _ :: _, [], _, h1, _ => by simp [lexLe] at h1
  | _ :: _, _ :: _, [], _, h2 => by simp [lexLe] at h2
  | a :: as, b :: bs, c :: cs, h1, h2 => by
    unfold lexLe at h1 h2 ⊢
    rcases Nat.lt_trichotomy a b with hab | hab | hab
    · rcases Nat.lt_trichotomy b c with hbc | hbc | hbc
      · simp [Nat.lt_trans hab hbc]
      · subst hbc; simp [hab]
      · simp [Nat.lt_asymm hbc, hbc] at h2
    · subst hab
      rcases Nat.lt_trichotomy a c with hac | hac | hac
      · simp [hac]
      · subst hac
        simp only [Nat.lt_irrefl, if_false] at h1 h2 ⊢
        exact lexLe_trans as bs cs h1 h2
      · simp [Nat.lt_asymm hac, hac] at h2
    · simp [Nat.lt_asymm hab, hab] at h1

lemma strLe_total (a b : String) : strLe a b = true ∨ strLe b a = true :=
  lexLe_total _ _

lemma strLe_trans (a b c : String) :
    strLe a b = true → strLe b c = true → strLe a c = true :=
  lexLe_trans _ _ _

lemma foundPair_spec (env : Env) (p : String × String)
    (h : foundPair env p = true) :
    ∃ gl gr, env.decode p.1 = some gl ∧ env.decode p.2 = some gr
      ∧ env.found gl = true ∧ env.found gr = true := by
  cases hgl : env.decode p.1 with
  | none => simp only [foundPair, hgl] at h; exact absurd h (by decide)
  | some gl =>
    cases hgr : env.decode p.2 with
    | none =>
      simp only [foundPair, hgl, hgr] at h
      exact absurd h (by decide)
    | some gr =>
      simp only [foundPair, hgl, hgr, Bool.and_eq_true] at h
      exact ⟨gl, gr, rfl, rfl, h.1, h.2⟩

/-- A small configuration: a 2×2 interior-corner chessboard with square
size 3, run on root directory `d`, no debug rendering. -/
def cfgA : Config :=
  { filePath := "d", chR := 2, chC := 2, squareSize := 3,
    paramSavePath := ".", imageLimit := 10, saveRendered := none }

/-- `cfgA` with debug rendering into directory `rend`. -/
def cfgR : Config := { cfgA with saveRendered := some "rend" }

/-- Two image pairs `a.png`, `b.png`: pair `a` detects on both sides,
pair `b` detects on the left but its right image is blank (no detection).
The two left images have different resolutions. -/
def envA : Env :=
  { leftDirFiles := ["b.png", "a.png"],
    rightDirFiles := ["a.png", "b.png"],
    decode := fun s =>
      if s = "d/stereo_left/a.png" then some 0
      else if s = "d/stereo_right/a.png" then some 1
      else if s = "d/stereo_left/b.png" then some 2
      else if s = "d/stereo_right/b.png" then some 3
      else none,
    shapeHW := fun g => if g = 2 then (8, 10) else (4, 6),
    found := fun g => g != 3,
    corners := fun g => [((g : ℤ), 0), (0, 1), (1, 0), (1, 1)],
    refine := fun g p => (p.1 + (g : ℤ), p.2),
    initialDirs := [],
    stereoRms := fun _ _ _ _ => 37 }

/-- A single pair whose left image holds a valid chessboard and whose right
image is blank: detection succeeds on the left only. -/
def envB : Env :=
  { leftDirFiles := ["a.png"],
    rightDirFiles := ["a.png"],
    decode := fun s =>
      if s = "d/stereo_left/a.png" then some 0
      else if s = "d/stereo_right/a.png" then some 1
      else none,
    shapeHW := fun _ => (4, 6),
    found := fun g => g == 0,
    corners := fun _ => [(0, 0), (0, 1), (1, 0), (1, 1)],
    refine := fun _ p => p,
    initialDirs := [],
    stereoRms := fun _ _ _ _ => 0 }

/-- Missing (or empty) `stereo_left`/`stereo_right` directories: no files
at all. -/
def envC : Env :=
  { leftDirFiles := [], rightDirFiles := [],
    decode := fun _ => none,
    shapeHW := fun _ => (4, 6),
    found := fun _ => false,
    corners := fun _ => [],
    refine := fun _ p => p,
    initialDirs := [],
    stereoRms := fun _ _ _ _ => 0 }

/-- Two pairs: pair `a` (input index 0) fails detection, pair `b` (input
index 1) detects on both sides.  Used with rendering on. -/
def envD : Env :=
  { leftDirFiles := ["a.png", "b.png"],
    rightDirFiles := ["a.png", "b.png"],
    decode := fun s =>
      if s = "d/stereo_left/a.png" then some 0
      else if s = "d/stereo_right/a.png" then some 1
      else if s = "d/stereo_left/b.png" then some 2
      else if s = "d/stereo_right/b.png" then some 3
      else none,
    shapeHW := fun _ => (4, 6),
    found := fun g => g == 2 || g == 3,
    corners := fun _ => [(0, 0), (0, 1), (1, 0), (1, 1)],
    refine := fun _ p => p,
    initialDirs := [],
    stereoRms := fun _ _ _ _ => 0 }

/-- One pair that detects on both sides, with the debug-render parent
directory `rend` already existing but its two children missing. -/
def envE : Env :=
  { leftDirFiles := ["a.png"],
    rightDirFiles := ["a.png"],
    decode := fun s =>
      if s = "d/stereo_left/a.png" then some 0
      else if s = "d/stereo_right/a.png" then some 1
      else none,
    shapeHW := fun _ => (4, 6),
    found := fun _ => true,
    corners := fun _ => [(0, 0), (0, 1), (1, 0), (1, 1)],
    refine := fun _ p => p,
    initialDirs := ["rend"],
    stereoRms := fun _ _ _ _ => 0 }

/-- One listed pair whose left PNG cannot be decoded (`cv2.imread` returns
null) while the right PNG decodes fine. -/
def envF : Env :=
  { leftDirFiles := ["a.png"],
    rightDirFiles := ["a.png"],
    decode := fun s =>
      if s = "d/stereo_right/a.png" then some 1 else none,
    shapeHW := fun _ => (4, 6),
    found := fun _ => true,
    corners := fun _ => [(0, 0), (0, 1), (1, 0), (1, 1)],
    refine := fun _ p => p,
    initialDirs := [],
    stereoRms := fun _ _ _ _ => 0 }

/-- One listed pair whose right PNG cannot be decoded while the left PNG
decodes fine. -/
def envF2 : Env :=
  { leftDirFiles := ["a.png"],
    rightDirFiles := ["a.png"],
    decode := fun s =>
      if s = "d/stereo_left/a.png" then some 0 else none,
    shapeHW := fun _ => (4, 6),
    found := fun _ => true,
    corners := fun _ => [(0, 0), (0, 1), (1, 0), (1, 1)],
    refine := fun _ p => p,
    initialDirs := [],
    stereoRms := fun _ _ _ _ => 0 }

/-- Fifteen image pairs `a.png` … `o.png`, listed out of order on the left
side to exercise the sort. -/
def envG : Env :=
  { leftDirFiles := ["o.png", "b.png", "a.png", "c.png", "d.png", "e.png",
                     "f.png", "g.png", "h.png", "i.png", "j.png", "k.png",
                     "l.png", "m.png", "n.png"],
    rightDirFiles := ["a.png", "b.png", "c.png", "d.png", "e.png", "f.png",
                      "g.png", "h.png", "i.png", "j.png", "k.png", "l.png",
                      "m.png", "n.png", "o.png"],
    decode := fun _ => none,
    shapeHW := fun _ => (4, 6),
    found := fun _ => false,
    corners := fun _ => [],
    refine := fun _ p => p,
    initialDirs := [],
    stereoRms := fun _ _ _ _ => 0 }

/-- Unequal directory contents: three left files, five right files. -/
def envU : Env :=
  { leftDirFiles := ["a.png", "b.png", "c.png"],
    rightDirFiles := ["a.png", "b.png", "c.png", "d.png", "e.png"],
    decode := fun _ => none,
    shapeHW := fun _ => (4, 6),
    found := fun _ => false,
    corners := fun _ => [],
    refine := fun _ p => p,
    initialDirs := [],
    stereoRms := fun _ _ _ _ => 0 }

instance (cfg : Config) (env : Env) : Decidable (allDecode cfg env) :=
  inferInstanceAs (Decidable (∀ p ∈ processedPairs cfg env, decodesPair env p))

/-- C2: for every image pair processed by `stereo_calibration`, the pair is
retained as a calibration sample iff both the left and the right chessboard
detections report `found = true`; a pair failing on either side contributes
no object-point entry and no corner observation, and the loop finishes
without raising an error. -/
theorem claim_C2_retention (cfg : Config) (env : Env) (hd : allDecode cfg env) :
    ∃ st, detectLoop cfg env = .ok st
      ∧ st.objpoints.length = (retainedPairs cfg env).length
      ∧ st.ipL.length = (retainedPairs cfg env).length
      ∧ st.ipR.length = (retainedPairs cfg env).length
      ∧ ∀ p ∈ processedPairs cfg env,
          (p ∈ retainedPairs cfg env ↔ foundPair env p = true) := by
  obtain ⟨st, h1, h2, h3, h4, -, -⟩ := detectLoop_ok cfg env hd
  refine ⟨st, h1, by rw [h2]; simp, by rw [h3]; simp, by rw [h4]; simp, ?_⟩
  intro p hp
  exact ⟨fun hr => (List.mem_filter.mp hr).2,
         fun hf => List.mem_filter.mpr ⟨hp, hf⟩⟩

/-- C2 witness: a pair with a valid left chessboard and a blank right image
(detection fails on the right) yields zero retained samples. -/
theorem claim_C2_retention_witness :
    retainedPairs cfgA envB = []
    ∧ foundPair envB ("d/stereo_left/a.png", "d/stereo_right/a.png") = false
    ∧ (∃ st, detectLoop cfgA envB = .ok st
        ∧ st.objpoints.length = (retainedPairs cfgA envB).length
        ∧ st.ipL.length = (retainedPairs cfgA envB).length
        ∧ st.ipR.length = (retainedPairs cfgA envB).length
        ∧ ∀ p ∈ processedPairs cfgA envB,
            (p ∈ retainedPairs cfgA envB ↔ foundPair envB p = true)) :=
  ⟨by decide, by decide, claim_C2_retention cfgA envB (by decide)⟩

/-- C3: after the detection loop the three accumulator lists have equal
length (one entry per retained sample); for every retained sample, the
left and the right corner observations are the index-preserving sub-pixel
refinements of the detected corner grids (so their ordering matches the
object-point ordering appended for the same sample) and each contains
exactly `rows*cols` points, given the `cv2.findChessboardCorners` contract
that a successful detection returns `rows*cols` corners. -/
theorem claim_C3_sample_invariants (cfg : Config) (env : Env)
    (hd : allDecode cfg env)
    (hC : ∀ g, env.found g = true →
      (env.corners g).length = cfg.chR * cfg.chC) :
    ∃ st, detectLoop cfg env = .ok st
      ∧ st.objpoints.length = st.ipL.length
      ∧ st.ipL.length = st.ipR.length
      ∧ st.objpoints = (retainedPairs cfg env).map (fun _ => objp cfg)
      ∧ st.ipL = (retainedPairs cfg env).map (refinedLeft env)
      ∧ st.ipR = (retainedPairs cfg env).map (refinedRight env)
      ∧ (∀ q ∈ st.ipL, q.length = cfg.chR * cfg.chC)
      ∧ (∀ q ∈ st.ipR, q.length = cfg.chR * cfg.chC) := by
  obtain ⟨st, h1, hobj, hl, hr, -, -⟩ := detectLoop_ok cfg env hd
  refine ⟨st, h1, by rw [hobj, hl]; simp, by rw [hl, hr]; simp,
          hobj, hl, hr, ?_, ?_⟩
  · intro q hq
    rw [hl] at hq
    obtain ⟨p, hp, rfl⟩ := List.mem_map.mp hq
    obtain ⟨gl, gr, hgl, hgr, hfl, hfr⟩ :=
      foundPair_spec env p (List.mem_filter.mp hp).2
    simp [refinedLeft, hgl, hC gl hfl]
  · intro q hq
    rw [hr] at hq
    obtain ⟨p, hp, rfl⟩ := List.mem_map.mp hq
    obtain ⟨gl, gr, hgl, hgr, hfl, hfr⟩ :=
      foundPair_spec env p (List.mem_filter.mp hp).2
    simp [refinedRight, hgr, hC gr hfr]

/-- C3 witness: the invariant instantiated on a concrete run with one
retained sample of a 2×2 pattern. -/
theorem claim_C3_sample_invariants_witness :
    (retainedPairs cfgA envA).length = 1
    ∧ (∃ st, detectLoop cfgA envA = .ok st
        ∧ st.objpoints.length = st.ipL.length
        ∧ st.ipL.length = st.ipR.length
        ∧ st.objpoints = (retainedPairs cfgA envA).map (fun _ => objp cfgA)
        ∧ st.ipL = (retainedPairs cfgA envA).map (refinedLeft envA)
        ∧ st.ipR = (retainedPairs cfgA envA).map (refinedRight envA)
        ∧ (∀ q ∈ st.ipL, q.length = cfgA.chR * cfgA.chC)
        ∧ (∀ q ∈ st.ipR, q.length = cfgA.chR * cfgA.chC)) :=
  ⟨by decide, claim_C3_sample_invariants cfgA envA (by decide) (fun g _ => rfl)⟩

/-- C5: the object-point set has exactly `rows*cols` points, every point
has `Z = 0`, point `n` carries the grid coordinates `(n % rows, n / rows)`
scaled by the square size, and the loop appends the very same `objp` value
for every retained pair. -/
theorem claim_C5_object_points (cfg : Config) (env : Env)
    (hd : allDecode cfg env) :
    (objp cfg).length = cfg.chR * cfg.chC
    ∧ (∀ q ∈ objp cfg, q.2.2 = 0)
    ∧ (∀ n, n < cfg.chR * cfg.chC →
        (objp cfg).getD n (0, 0, 0)
          = (((n % cfg.chR : ℕ) : ℤ) * cfg.squareSize,
             ((n / cfg.chR : ℕ) : ℤ) * cfg.squareSize, 0))
    ∧ (∃ st, detectLoop cfg env = .ok st
        ∧ st.objpoints.length = (retainedPairs cfg env).length
        ∧ ∀ o ∈ st.objpoints, o = objp cfg) := by
  refine ⟨by simp [objp], ?_, ?_, ?_⟩
  · intro q hq
    obtain ⟨n, hn, rfl⟩ := List.mem_map.mp hq
    simp
  · intro n hn
    have hlen : n < (objp cfg).length := by simp [objp, hn]
    rw [List.getD_eq_getElem _ _ hlen]
    unfold objp
    rw [List.getElem_map]
    simp
  · obtain ⟨st, h1, hobj, -, -, -, -⟩ := detectLoop_ok cfg env hd
    refine ⟨st, h1, by rw [hobj]; simp, ?_⟩
    intro o ho
    rw [hobj] at ho
    obtain ⟨p, hp, hpo⟩ := List.mem_map.mp ho
    exact hpo.symm

/-- C5 witness: the object points of a 2×2 pattern with square size 3,
and the coordinate formula at index 1. -/
theorem claim_C5_object_points_witness :
    objp cfgA = [(0, 0, 0), (3, 0, 0), (0, 3, 0), (3, 3, 0)]
    ∧ (objp cfgA).getD 1 (0, 0, 0)
        = (((1 % cfgA.chR : ℕ) : ℤ) * cfgA.squareSize,
           ((1 / cfgA.chR : ℕ) : ℤ) * cfgA.squareSize, 0) :=
  ⟨by decide, (claim_C5_object_points cfgA envA (by decide)).2.2.1 1 (by decide)⟩

/-- C4: the processed pair sequence is the element-wise zip (truncated to
the shorter side) of the lexicographically sorted PNG paths of the two
directories, each sorted list truncated to its first `image_limit` entries;
the default limit is 10; nothing beyond the zip validates that the two
directories have matching counts. -/
theorem claim_C4_pair_enumeration (cfg : Config) (env : Env) :
    processedPairs cfg env
        = ((sortedLeft cfg env).take cfg.imageLimit).zip
            ((sortedRight cfg env).take cfg.imageLimit)
      ∧ List.Pairwise (fun a b => strLe a b = true) (sortedLeft cfg env)
      ∧ List.Pairwise (fun a b => strLe a b = true) (sortedRight cfg env)
      ∧ (processedPairs cfg env).length
          = min (min cfg.imageLimit (sortedLeft cfg env).length)
                (min cfg.imageLimit (sortedRight cfg env).length)
      ∧ defaultImageLimit = 10
      ∧ ∀ i, i < (processedPairs cfg env).length →
          (processedPairs cfg env).getD i ("", "")
            = ((sortedLeft cfg env).getD i "",
               (sortedRight cfg env).getD i "") := by
  haveI hT : IsTotal String (fun a b => strLe a b = true) := ⟨strLe_total⟩
  haveI hR : IsTrans String (fun a b => strLe a b = true) :=
    ⟨fun a b c => strLe_trans a b c⟩
  refine ⟨rfl, List.sorted_insertionSort _ _, List.sorted_insertionSort _ _,
          ?_, rfl, ?_⟩
  · simp only [processedPairs, leftImages, rightImages, List.length_zip,
      List.length_take]
  · intro i hi
    have hi' : i < ((sortedLeft cfg env).take cfg.imageLimit).length
        ⊓ ((sortedRight cfg env).take cfg.imageLimit).length := by
      rw [processedPairs, List.length_zip] at hi
      exact hi
    have hiL : i < ((sortedLeft cfg env).take cfg.imageLimit).length :=
      lt_of_lt_of_le hi' (min_le_left _ _)
    have hiR : i < ((sortedRight cfg env).take cfg.imageLimit).length :=
      lt_of_lt_of_le hi' (min_le_right _ _)
    have hiL' : i < (sortedLeft cfg env).length := by
      rw [List.length_take] at hiL
      exact lt_of_lt_of_le hiL (min_le_right _ _)
    have hiR' : i < (sortedRight cfg env).length := by
      rw [List.length_take] at hiR
      exact lt_of_lt_of_le hiR (min_le_right _ _)
    rw [List.getD_eq_getElem _ _ hi, List.getD_eq_getElem _ _ hiL',
        List.getD_eq_getElem _ _ hiR']
    show (((sortedLeft cfg env).take cfg.imageLimit).zip
        ((sortedRight cfg env).take cfg.imageLimit))[i] = _
    rw [List.getElem_zip]
    rw [List.getElem_take, List.getElem_take]

/-- C4 witness: with 15 available pairs and limit 10 exactly the first ten
sorted names are processed; with limit 20 all fifteen; with 3 left and 5
right files the zip stops at the shorter side. -/
theorem claim_C4_pair_enumeration_witness :
    (processedPairs cfgA envG).length = 10
    ∧ (processedPairs cfgA envG).getD 0 ("", "")
        = ("d/stereo_left/a.png", "d/stereo_right/a.png")
    ∧ (processedPairs cfgA envG).getD 9 ("", "")
        = ("d/stereo_left/j.png", "d/stereo_right/j.png")
    ∧ (processedPairs { cfgA with imageLimit := 20 } envG).length = 15
    ∧ (processedPairs cfgA envU).length = 3
    ∧ (processedPairs cfgA envG).getD 0 ("", "")
        = ((sortedLeft cfgA envG).getD 0 "", (sortedRight cfgA envG).getD 0 "") :=
  ⟨by decide, by decide, by decide, by decide, by decide,
   (claim_C4_pair_enumeration cfgA envG).2.2.2.2.2 0 (by decide)⟩

deriving instance DecidableEq for Except

/-- C1 counterexample: with zero retained samples the run does not fail
with the dedicated insufficient-samples error.  With missing/empty
directories it raises the `NameError` at `img_size = grayL.shape[::-1]`;
with one processed pair whose right detection fails it reaches
`cv2.calibrateCamera` with empty point lists and dies on the solver's own
assertion. -/
theorem claim_C1_fail_fast_counterexample :
    retainedPairs cfgA envC = []
    ∧ run cfgA envC ≠ .error .insufficientSamples
    ∧ run cfgA envC = .error .nameErrorGrayL
    ∧ retainedPairs cfgA envB = []
    ∧ run cfgA envB ≠ .error .insufficientSamples
    ∧ run cfgA envB = .error .calibrateCameraAssert := by decide

/-- C1 (amended): with zero retained samples `stereo_calibration` raises no
dedicated error before the solvers: if no pair was read at all it fails
with a `NameError` at the image-size extraction, and otherwise it invokes
`cv2.calibrateCamera` on empty point lists, which fails with the solver's
opaque assertion. -/
theorem claim_C1_no_dedicated_error (cfg : Config) (env : Env)
    (hd : allDecode cfg env) (hzero : retainedPairs cfg env = []) :
    (processedPairs cfg env = [] → run cfg env = .error .nameErrorGrayL)
    ∧ (processedPairs cfg env ≠ [] →
        run cfg env = .error .calibrateCameraAssert) := by
  obtain ⟨st, h1, hobj, -, -, hlast, -⟩ := detectLoop_ok cfg env hd
  have hobj0 : st.objpoints = [] := by rw [hobj, hzero]; rfl
  constructor
  · intro hpp
    have hnone : st.lastGrayL = none := by rw [hlast, hpp]; rfl
    show (detectLoop cfg env).bind (runTail cfg env) = _
    rw [h1]
    show runTail cfg env st = _
    unfold runTail
    rw [hnone]
  · intro hpp
    obtain ⟨p, hp1, hp2, hp3⟩ :=
      lastLeftDecoded_spec env (processedPairs cfg env) none hpp
    obtain ⟨g, hg⟩ := Option.isSome_iff_exists.mp (hd p hp2).1
    have hsome : st.lastGrayL = some g := by rw [hlast, hp3, hg]
    show (detectLoop cfg env).bind (runTail cfg env) = _
    rw [h1]
    show runTail cfg env st = _
    unfold runTail
    rw [hsome, hobj0]
    rfl

/-- C1 amended-claim witness: the two zero-sample failure modes at concrete
inputs. -/
theorem claim_C1_no_dedicated_error_witness :
    run cfgA envB = .error .calibrateCameraAssert
    ∧ run cfgA envC = .error .nameErrorGrayL :=
  ⟨(claim_C1_no_dedicated_error cfgA envB (by decide) (by decide)).2
      (by decide),
   (claim_C1_no_dedicated_error cfgA envC (by decide) (by decide)).1
      (by decide)⟩

/-- C6: a successful run writes exactly one archive, at
`<param_save_path>/stereo_calib.npz`, holding exactly the named arrays
`mtxL, distL, mtxR, distR, R, T, R1, R2, P1, P2, Q`, and returns the
stereo solver's reprojection RMS error as its sole direct return value. -/
theorem claim_C6_archive_and_return (cfg : Config) (env : Env)
    (hd : allDecode cfg env) (hne : retainedPairs cfg env ≠ []) :
    ∃ out, run cfg env = .ok out
      ∧ out.archives = [(joinP cfg.paramSavePath "stereo_calib.npz", npzKeys)]
      ∧ npzKeys = ["mtxL", "distL", "mtxR", "distR", "R", "T",
                   "R1", "R2", "P1", "P2", "Q"]
      ∧ out.retval = env.stereoRms out.objpoints out.ipL out.ipR out.imgSize := by
  obtain ⟨out, h1, -, -, -, -, h6, h7, -⟩ := run_ok cfg env hd hne
  exact ⟨out, h1, h6, rfl, h7⟩

/-- C6 witness: the archive path, key list and returned RMS value on a
concrete successful run. -/
theorem claim_C6_archive_and_return_witness :
    (run cfgA envA).toOption.map (fun o => o.archives)
        = some [("./stereo_calib.npz", npzKeys)]
    ∧ (run cfgA envA).toOption.map (fun o => o.retval) = some 37
    ∧ (∃ out, run cfgA envA = .ok out
        ∧ out.archives = [(joinP cfgA.paramSavePath "stereo_calib.npz", npzKeys)]
        ∧ npzKeys = ["mtxL", "distL", "mtxR", "distR", "R", "T",
                     "R1", "R2", "P1", "P2", "Q"]
        ∧ out.retval = envA.stereoRms out.objpoints out.ipL out.ipR out.imgSize) :=
  ⟨by decide, by decide,
   claim_C6_archive_and_return cfgA envA (by decide) (by decide)⟩

/-- C7 counterexample: a run whose single retained sample has resolution
`(6, 4)` while the last pair read (which failed detection) has resolution
`(10, 8)`: the solvers receive `(10, 8)`, not the last retained sample's
resolution. -/
theorem claim_C7_image_size_counterexample :
    retainedPairs cfgA envA = [("d/stereo_left/a.png", "d/stereo_right/a.png")]
    ∧ imgSizeOfPath envA (some "d/stereo_left/a.png") = (6, 4)
    ∧ (run cfgA envA).toOption.map (fun o => o.imgSize) = some (10, 8)
    ∧ (run cfgA envA).toOption.map (fun o => o.imgSize) ≠ some (6, 4) := by
  decide

/-- C7 (amended): the image size passed to the solvers is the resolution of
the left image of the last pair read by the loop — retained or not — for
every run that reaches the solve. -/
theorem claim_C7_image_size_last_read (cfg : Config) (env : Env)
    (hd : allDecode cfg env) (hne : retainedPairs cfg env ≠ []) :
    ∃ out, run cfg env = .ok out
      ∧ out.imgSize = imgSizeOfPath env
          ((processedPairs cfg env).getLast?.map Prod.fst) := by
  obtain ⟨out, h1, -, -, -, h5, -, -, -⟩ := run_ok cfg env hd hne
  exact ⟨out, h1, h5⟩

/-- C7 amended-claim witness: the concrete last-read resolution flows to
the solvers. -/
theorem claim_C7_image_size_last_read_witness :
    imgSizeOfPath envA ((processedPairs cfgA envA).getLast?.map Prod.fst)
        = (10, 8)
    ∧ (∃ out, run cfgA envA = .ok out
        ∧ out.imgSize = imgSizeOfPath envA
            ((processedPairs cfgA envA).getLast?.map Prod.fst)) :=
  ⟨by decide, claim_C7_image_size_last_read cfgA envA (by decide) (by decide)⟩

/-- C8 counterexample: with rendering on, the first input pair fails
detection and the second is retained; its retained-sample position is 0,
yet the files are written as `left_img1.png`/`right_img1.png` — the
original file index, not the retained-sample position. -/
theorem claim_C8_render_index_counterexample :
    (retainedPairs cfgR envD).length = 1
    ∧ (detectLoop cfgR envD).toOption.map (fun st => st.writes.map Prod.fst)
        = some ["rend/stereo_left/left_img1.png",
                "rend/stereo_right/right_img1.png"]
    ∧ (detectLoop cfgR envD).toOption.map (fun st => st.writes.map Prod.fst)
        ≠ some ["rend/stereo_left/left_img0.png",
                "rend/stereo_right/right_img0.png"] := by decide

/-- C8 (amended): when rendering is requested, one pair of files per
successfully-detected sample is written to
`<save_rendered>/stereo_left/left_img<i>.png` and
`<save_rendered>/stereo_right/right_img<i>.png`, where `i` is the sample's
original index in the zipped input sequence (the `enumerate` counter), not
its position among the retained samples. -/
theorem claim_C8_render_original_index (cfg : Config) (env : Env)
    (sr : String) (hsr : cfg.saveRendered = some sr)
    (hd : allDecode cfg env) :
    ∃ st, detectLoop cfg env = .ok st
      ∧ st.writes.map Prod.fst
          = ((processedPairs cfg env).enum.filter
                (fun ip => foundPair env ip.2)).flatMap
              (fun ip => [leftFile sr ip.1, rightFile sr ip.1]) := by
  obtain ⟨st, h1, -, -, -, -, hw⟩ := detectLoop_ok cfg env hd
  refine ⟨st, h1, ?_⟩
  rw [hw]
  unfold writePathsOf
  rw [hsr]

/-- C8 amended-claim witness: the single retained sample (input index 1)
produces exactly the two index-1 files. -/
theorem claim_C8_render_original_index_witness :
    ((processedPairs cfgR envD).enum.filter
          (fun ip => foundPair envD ip.2)).flatMap
        (fun ip => [leftFile "rend" ip.1, rightFile "rend" ip.1])
      = ["rend/stereo_left/left_img1.png", "rend/stereo_right/right_img1.png"]
    ∧ (∃ st, detectLoop cfgR envD = .ok st
        ∧ st.writes.map Prod.fst
            = ((processedPairs cfgR envD).enum.filter
                  (fun ip => foundPair envD ip.2)).flatMap
                (fun ip => [leftFile "rend" ip.1, rightFile "rend" ip.1])) :=
  ⟨by decide, claim_C8_render_original_index cfgR envD "rend" rfl (by decide)⟩

lemma retainStep_render (cfg : Config) (env : Env) (st : LoopState)
    (i gl gr : Nat) (sr : String) (hsr : cfg.saveRendered = some sr)
    (hc : st.dirs.contains sr = true) :
    (retainStep cfg env st i gl gr).dirs = st.dirs
    ∧ (retainStep cfg env st i gl gr).writes = st.writes ++
        [(leftFile sr i, st.dirs.contains (joinP sr "stereo_left")),
         (rightFile sr i, st.dirs.contains (joinP sr "stereo_right"))] := by
  unfold retainStep
  rw [hsr]
  have hc' : sr ∈ st.dirs := by simpa using hc
  simp [hc']

/-- The detection loop never touches the directory set once the debug
parent directory exists, and every write attempt then succeeds or fails
according to whether the corresponding child directory already existed. -/
lemma foldl_dirs_invariant (cfg : Config) (env : Env) (sr : String)
    (hsr : cfg.saveRendered = some sr) :
    ∀ (l : List (Nat × (String × String))) (st : LoopState),
      (∀ ip ∈ l, decodesPair env ip.2) →
      st.dirs.contains sr = true →
      ∃ fin,
        l.foldlM (fun s ip => processPair cfg env s ip.1 ip.2.1 ip.2.2) st
          = .ok fin
        ∧ fin.dirs = st.dirs
        ∧ fin.writes = st.writes ++
            ((l.filter fun ip => foundPair env ip.2).flatMap fun ip =>
              [(leftFile sr ip.1, st.dirs.contains (joinP sr "stereo_left")),
               (rightFile sr ip.1, st.dirs.contains (joinP sr "stereo_right"))]) := by
  intro l
  induction l with
  | nil => intro st _ _; exact ⟨st, rfl, rfl, by simp⟩
  | cons x rest ih =>
    intro st hdec hc
    obtain ⟨gl, hgl⟩ := Option.isSome_iff_exists.mp (hdec x (by simp)).1
    obtain ⟨gr, hgr⟩ := Option.isSome_iff_exists.mp (hdec x (by simp)).2
    have hdecr : ∀ ip ∈ rest, decodesPair env ip.2 := fun ip h =>
      hdec ip (by simp [h])
    have hfp : foundPair env x.2 = (env.found gl && env.found gr) := by
      simp [foundPair, hgl, hgr]
    by_cases hf : (env.found gl && env.found gr) = true
    · set st1 : LoopState := { st with lastGrayL := some gl } with hst1
      have hc1 : st1.dirs.contains sr = true := hc
      obtain ⟨hdirs, hwrites⟩ :=
        retainStep_render cfg env st1 x.1 gl gr sr hsr hc1
      have hc2 : (retainStep cfg env st1 x.1 gl gr).dirs.contains sr = true := by
        rw [hdirs]; exact hc1
      obtain ⟨fin, hrun, hfd, hfw⟩ := ih (retainStep cfg env st1 x.1 gl gr)
        hdecr hc2
      refine ⟨fin, ?_, ?_, ?_⟩
      · rw [List.foldlM_cons]
        simp only [processPair, hgl, hgr, hf, if_true]
        exact hrun
      · rw [hfd, hdirs]
      · rw [hfw, hwrites, hdirs, List.filter_cons]
        simp only [hfp, hf, if_true]
        rw [List.flatMap_cons]
        simp [hst1]
    · set st1 : LoopState := { st with lastGrayL := some gl } with hst1
      obtain ⟨fin, hrun, hfd, hfw⟩ := ih st1 hdecr hc
      refine ⟨fin, ?_, ?_, ?_⟩
      · rw [List.foldlM_cons]
        simp only [processPair, hgl, hgr, hf, if_false]
        exact hrun
      · exact hfd
      · rw [hfw, List.filter_cons]
        simp only [hfp, hf, if_false]
        simp [hst1]

/-- C9: when rendering is requested and the parent `save_rendered`
directory already exists while its `stereo_left`/`stereo_right` children
are missing, the creation branch never runs (its guard only checks the
parent), the children are never created, and every rendered-image write
fails. -/
theorem claim_C9_render_dirs (cfg : Config) (env : Env) (sr : String)
    (hsr : cfg.saveRendered = some sr)
    (hd : allDecode cfg env)
    (hparent : env.initialDirs.contains sr = true)
    (hleft : env.initialDirs.contains (joinP sr "stereo_left") = false)
    (hright : env.initialDirs.contains (joinP sr "stereo_right") = false) :
    ∃ st, detectLoop cfg env = .ok st
      ∧ st.dirs = env.initialDirs
      ∧ st.dirs.contains (joinP sr "stereo_left") = false
      ∧ st.dirs.contains (joinP sr "stereo_right") = false
      ∧ ∀ w ∈ st.writes, w.2 = false := by
  obtain ⟨fin, h1, h2, h3⟩ := foldl_dirs_invariant cfg env sr hsr
      (processedPairs cfg env).enum (initState env)
      (fun ip hip => hd ip.2 (snd_mem_enumFrom _ 0 ip hip))
      (by simpa [initState] using hparent)
  have hid : (initState env).dirs = env.initialDirs := rfl
  refine ⟨fin, h1, by rw [h2, hid], by rw [h2, hid]; exact hleft,
          by rw [h2, hid]; exact hright, ?_⟩
  intro w hw
  rw [h3] at hw
  have hw' : w ∈ ((processedPairs cfg env).enum.filter
      fun ip => foundPair env ip.2).flatMap fun ip =>
        [(leftFile sr ip.1, (initState env).dirs.contains (joinP sr "stereo_left")),
         (rightFile sr ip.1, (initState env).dirs.contains (joinP sr "stereo_right"))] := by
    simpa [initState] using hw
  obtain ⟨ip, hip, hmem⟩ := List.mem_flatMap.mp hw'
  rcases List.mem_cons.mp hmem with h | h
  · rw [h]
    show (initState env).dirs.contains (joinP sr "stereo_left") = false
    rw [hid]; exact hleft
  · rcases List.mem_cons.mp h with h' | h'
    · rw [h']
      show (initState env).dirs.contains (joinP sr "stereo_right") = false
      rw [hid]; exact hright
    · simp at h'

/-- C9 witness: a concrete run with the parent directory pre-existing and
the children missing: nothing is created and both writes fail. -/
theorem claim_C9_render_dirs_witness :
    (detectLoop cfgR envE).toOption.map (fun st => st.writes)
        = some [("rend/stereo_left/left_img0.png", false),
                ("rend/stereo_right/right_img0.png", false)]
    ∧ (∃ st, detectLoop cfgR envE = .ok st
        ∧ st.dirs = envE.initialDirs
        ∧ st.dirs.contains (joinP "rend" "stereo_left") = false
        ∧ st.dirs.contains (joinP "rend" "stereo_right") = false
        ∧ ∀ w ∈ st.writes, w.2 = false) :=
  ⟨by decide,
   claim_C9_render_dirs cfgR envE "rend" rfl (by decide) (by decide)
     (by decide) (by decide)⟩

lemma enumFrom_take :
    ∀ (l : List (String × String)) (n k : Nat),
      (List.enumFrom n l).take k = List.enumFrom n (l.take k) := by
  intro l
  induction l with
  | nil => intro n k; simp
  | cons x xs ih =>
    intro n k
    cases k with
    | zero => simp
    | succ k =>
      rw [List.enumFrom_cons, List.take_succ_cons, List.take_succ_cons,
          List.enumFrom_cons, ih (n + 1) k]

/-- If every pair before index `k` decodes and the loop body fails with
error `e` on the `k`-th pair regardless of the loop state, the whole run
fails with `e`. -/
lemma detectLoop_error_at (cfg : Config) (env : Env) (k : Nat)
    (hk : k < (processedPairs cfg env).length)
    (hpre : ∀ p ∈ (processedPairs cfg env).take k, decodesPair env p)
    (e : RunError)
    (hstep : ∀ st : LoopState,
      processPair cfg env st k ((processedPairs cfg env)[k]).1
        ((processedPairs cfg env)[k]).2 = .error e) :
    run cfg env = .error e := by
  have hk' : k < (processedPairs cfg env).enum.length := by
    rw [List.enum_length]; exact hk
  have hsplit : (processedPairs cfg env).enum
      = (processedPairs cfg env).enum.take k
        ++ ((k, (processedPairs cfg env)[k])
            :: (processedPairs cfg env).enum.drop (k + 1)) := by
    conv_lhs => rw [← List.take_append_drop k (processedPairs cfg env).enum]
    congr 1
    rw [List.drop_eq_getElem_cons hk', List.getElem_enum]
  have htake : (processedPairs cfg env).enum.take k
      = List.enumFrom 0 ((processedPairs cfg env).take k) :=
    enumFrom_take (processedPairs cfg env) 0 k
  obtain ⟨st, hpref, -, -, -, -, -⟩ := foldl_ok cfg env
    (List.enumFrom 0 ((processedPairs cfg env).take k)) (initState env)
    (fun ip hip => hpre ip.2 (snd_mem_enumFrom _ 0 ip hip))
  have hloop : detectLoop cfg env = .error e := by
    unfold detectLoop
    rw [hsplit, htake, List.foldlM_append, hpref]
    show List.foldlM (fun s ip => processPair cfg env s ip.1 ip.2.1 ip.2.2) st
        ((k, (processedPairs cfg env)[k])
          :: (processedPairs cfg env).enum.drop (k + 1)) = .error e
    rw [List.foldlM_cons, hstep st]
    rfl
  show (detectLoop cfg env).bind (runTail cfg env) = _
  rw [hloop]
  rfl

/-- C10: the run never checks whether image decoding succeeded: if every
pair before index `k` decodes and the `k`-th listed pair has an
undecodable PNG, the null `cv2.imread` result flows into `cv2.cvtColor`
and the whole run aborts with that exception — the pair is not skipped and
no decode error is reported. -/
theorem claim_C10_unchecked_decode (cfg : Config) (env : Env) (k : Nat)
    (hk : k < (processedPairs cfg env).length)
    (hpre : ∀ p ∈ (processedPairs cfg env).take k, decodesPair env p) :
    (env.decode ((processedPairs cfg env).getD k ("", "")).1 = none →
      run cfg env
        = .error (.cvtColorNull ((processedPairs cfg env).getD k ("", "")).1))
    ∧ (∀ g,
        env.decode ((processedPairs cfg env).getD k ("", "")).1 = some g →
        env.decode ((processedPairs cfg env).getD k ("", "")).2 = none →
        run cfg env
          = .error (.cvtColorNull ((processedPairs cfg env).getD k ("", "")).2)) := by
  have hget : (processedPairs cfg env).getD k ("", "")
      = (processedPairs cfg env)[k] := List.getD_eq_getElem _ _ hk
  constructor
  · intro hnone
    rw [hget] at hnone ⊢
    exact detectLoop_error_at cfg env k hk hpre _
      (fun st => by simp [processPair, hnone])
  · intro g hsome hnone
    rw [hget] at hsome hnone ⊢
    exact detectLoop_error_at cfg env k hk hpre _
      (fun st => by simp [processPair, hsome, hnone])

/-- C10 witness: a left PNG that fails to decode aborts the run with the
conversion error naming that file; likewise for a right PNG. -/
theorem claim_C10_unchecked_decode_witness :
    run cfgA envF
        = .error (.cvtColorNull ((processedPairs cfgA envF).getD 0 ("", "")).1)
    ∧ ((processedPairs cfgA envF).getD 0 ("", "")).1 = "d/stereo_left/a.png"
    ∧ run cfgA envF2
        = .error (.cvtColorNull ((processedPairs cfgA envF2).getD 0 ("", "")).2)
    ∧ ((processedPairs cfgA envF2).getD 0 ("", "")).2 = "d/stereo_right/a.png" :=
  ⟨(claim_C10_unchecked_decode cfgA envF 0 (by decide) (by decide)).1
      (by decide),
   by decide,
   (claim_C10_unchecked_decode cfgA envF2 0 (by decide) (by decide)).2 0
      (by decide) (by decide),
   by decide⟩
